import Mathlib

/-!
Verification development for the PixelPulse pixelation-and-animation
pipeline (src/js/pixelate.js).  The JavaScript classes PixelateEngine,
AnimationEngine and GifExporter are shallowly embedded: real-number
arithmetic is modelled by the rationals, machine platform functions
(Math.sin, Math.cos, Math.PI, the canvas resampler) are abstracted as
explicit parameters, and Math.random is modelled as an ambient stream
of values consumed in call order.
-/

namespace PixelPulse

/-- One RGBA cell of the pixel grid, channels 0..255 as produced by
getImageData. -/
structure Cell where
  r : ℕ
  g : ℕ
  b : ℕ
  a : ℕ
deriving DecidableEq, Repr

/-- The decoded source bitmap (width, height, pixel buffer). -/
structure ImageBitmap where
  width : ℕ
  height : ℕ
  data : ℕ → ℕ → Cell

/-- The platform canvas: drawing an image onto a gw x gh canvas with
smoothing enabled performs an implementation-defined quality resize.
We therefore take the downsampler as an abstract parameter
(img, gw, gh, x, y) -> cell. -/
structure CanvasHost where
  downsample : ImageBitmap → ℕ → ℕ → ℕ → ℕ → Cell

/-- Result of getImageData on the engine's temp canvas. -/
structure PixImageData where
  width : ℤ
  height : ℤ
  pixels : ℕ → ℕ → Cell

/-- Mutable state of PixelateEngine (constructor defaults:
originalImage = null, pixelSize = 8, outputWidth = outputHeight = 0). -/
structure PEState where
  originalImage : Option ImageBitmap
  pixelSize : ℕ
  outputWidth : ℤ
  outputHeight : ℤ

/-- PixelateEngine.setPixelSize: clamps into [4,64]. -/
def setPixelSize (s : PEState) (size : ℕ) : PEState :=
  { s with pixelSize := max 4 (min 64 size) }

/-- PixelateEngine.getPixelatedData(maxWidth, maxHeight).
Returns null and leaves the engine untouched when no image is loaded;
otherwise computes the scale-then-snap geometry, stores
outputWidth/outputHeight, and returns the pixelated image data (the
small canvas content magnified by nearest neighbour, smoothing off). -/
def getPixelatedData (host : CanvasHost) (s : PEState) (maxWidth maxHeight : ℚ) :
    Option PixImageData × PEState :=
  match s.originalImage with
  | Option.none => (Option.none, s)
  | some img =>
    let ps : ℕ := s.pixelSize
    let scale : ℚ := min (maxWidth / img.width) (min (maxHeight / img.height) 1)
    let scaledWidth : ℤ := ⌊(img.width : ℚ) * scale⌋
    let scaledHeight : ℤ := ⌊(img.height : ℚ) * scale⌋
    let gridWidth : ℤ := ⌈(scaledWidth : ℚ) / ps⌉
    let gridHeight : ℤ := ⌈(scaledHeight : ℚ) / ps⌉
    let ow : ℤ := gridWidth * ps
    let oh : ℤ := gridHeight * ps
    let s' := { s with outputWidth := ow, outputHeight := oh }
    let small := host.downsample img gridWidth.toNat gridHeight.toNat
    (some ⟨ow, oh, fun px py => small (px / ps) (py / ps)⟩, s')

/-- PixelateEngine.getPixelGrid: null when no image is loaded; otherwise
builds the 2-D cell grid from the quality-downsampled small canvas,
using the stored outputWidth/outputHeight.  The engine state is not
mutated. -/
def getPixelGrid (host : CanvasHost) (s : PEState) :
    Option (List (List Cell)) × PEState :=
  match s.originalImage with
  | Option.none => (Option.none, s)
  | some img =>
    let ps : ℕ := s.pixelSize
    let gridWidth : ℤ := ⌈(s.outputWidth : ℚ) / ps⌉
    let gridHeight : ℤ := ⌈(s.outputHeight : ℚ) / ps⌉
    let small := host.downsample img gridWidth.toNat gridHeight.toNat
    (some ((List.range gridHeight.toNat).map fun y =>
      (List.range gridWidth.toNat).map fun x => small x y), s)

/-- A target canvas: dimensions plus the image data last written to it. -/
structure Canvas where
  width : ℤ
  height : ℤ
  content : Option PixImageData

/-- PixelateEngine.renderToCanvas: no-op when no image is loaded;
otherwise resizes the target canvas to the output geometry and puts the
pixelated image data on it. -/
def renderToCanvas (host : CanvasHost) (s : PEState) (canvas : Canvas)
    (maxWidth maxHeight : ℚ) : Canvas × PEState :=
  match s.originalImage with
  | Option.none => (canvas, s)
  | some _ =>
    match getPixelatedData host s maxWidth maxHeight with
    | (Option.none, s') => (canvas, s')
    | (some imageData, s') =>
      (⟨s'.outputWidth, s'.outputHeight, some imageData⟩, s')

/-! AnimationEngine playback state and the GifExporter capture loop. -/

/-- The AnimationEngine fields driving playback (isRunning, time,
frameCount, speed).  The grid caches (pixelGrid, baseImageData) refreshed
by prepare() carry no claim-relevant state and are omitted. -/
structure AnimState where
  isRunning : Bool
  time : ℚ
  frameCount : ℕ
  speed : ℕ
deriving DecidableEq, Repr

/-- AnimationEngine.start: returns early when already running, otherwise
re-prepares the grid, raises the running flag and zeroes the clock and
frame counter before scheduling the animate loop. -/
def animStart (s : AnimState) : AnimState :=
  if s.isRunning then s
  else { s with isRunning := true, time := 0, frameCount := 0 }

/-- AnimationEngine.stop: lowers the running flag and cancels the
scheduled frame. -/
def animStop (s : AnimState) : AnimState :=
  { s with isRunning := false }

/-- AnimationEngine.reset: zeroes the clock and frame counter. -/
def animReset (s : AnimState) : AnimState :=
  { s with time := 0, frameCount := 0 }

/-- Clock advance per tick: 0.016 * (speed / 5). -/
def tickStep (s : AnimState) : ℚ :=
  (2 / 125) * ((s.speed : ℚ) / 5)

/-- Combined state of GifExporter.startExport's capture loop plus the
animation engine it drives.  progressLog records onProgress percentages,
most recent first; renderStarted records that gif.render() was invoked
(the capture/encode boundary). -/
structure ExpoState where
  anim : AnimState
  framesCaptured : ℕ
  frameCounter : ℕ
  isExporting : Bool
  addFrameCalls : ℕ
  progressLog : List ℕ
  renderStarted : Bool
deriving DecidableEq, Repr

/-- GifExporter.addFrame: guarded by isExporting (the gif instance is
assumed available), copies the canvas into the encoder, bumps
framesCaptured and reports capture progress floor(captured/total*50). -/
def expAddFrame (total : ℕ) (s : ExpoState) : ExpoState :=
  if s.isExporting then
    { s with
      framesCaptured := s.framesCaptured + 1,
      addFrameCalls := s.addFrameCalls + 1,
      progressLog := ((s.framesCaptured + 1) * 50 / total) :: s.progressLog }
  else s

/-- One iteration body of the capture loop: advance the engine clock by
one logical step, render, bump the tick counter, and capture every
interval-th tick. -/
def expBody (total interval : ℕ) (s : ExpoState) : ExpoState :=
  let a := { s.anim with time := s.anim.time + tickStep s.anim }
  let s1 := { s with anim := a, frameCounter := s.frameCounter + 1 }
  if (s.frameCounter + 1) % interval = 0 then expAddFrame total s1 else s1

/-- Exit path of the capture loop: when still exporting, report 50% and
start encoding; then restore the engine's prior running state. -/
def expFinish (wasRunning : Bool) (s : ExpoState) : ExpoState :=
  let s1 :=
    if s.isExporting then
      { s with progressLog := 50 :: s.progressLog, renderStarted := true }
    else s
  if wasRunning then { s1 with anim := animStart s1.anim } else s1

/-- GifExporter.cancel observed at a tick boundary: once the given tick
count is reached the exporting flag is lowered before the loop's check. -/
def applyCancel (cancelAt : Option ℕ) (s : ExpoState) : ExpoState :=
  match cancelAt with
  | Option.none => s
  | some c => if c ≤ s.frameCounter then { s with isExporting := false } else s

/-- The captureLoop recursion of GifExporter.startExport, fuelled. -/
def expLoop (wasRunning : Bool) (total interval : ℕ) (cancelAt : Option ℕ) :
    ℕ → ExpoState → ExpoState
  | 0, s => s
  | fuel + 1, s =>
    let s1 := applyCancel cancelAt s
    if s1.isExporting = false ∨ total ≤ s1.framesCaptured then expFinish wasRunning s1
    else expLoop wasRunning total interval cancelAt fuel (expBody total interval s1)

/-- GifExporter.startExport: records the prior running state, stops and
resets the engine, then runs the capture loop. -/
def startExport (s0 : AnimState) (frames interval : ℕ) (cancelAt : Option ℕ)
    (fuel : ℕ) : ExpoState :=
  expLoop s0.isRunning frames interval cancelAt fuel
    { anim := animReset (animStop s0), framesCaptured := 0, frameCounter := 0,
      isExporting := true, addFrameCalls := 0, progressLog := [],
      renderStarted := false }

/-! Colour-space conversion of AnimationEngine. -/

/-- Hue in degrees, saturation and lightness in [0,1], as returned by
AnimationEngine.rgbToHsl. -/
structure HSL where
  h : ℚ
  s : ℚ
  l : ℚ
deriving DecidableEq, Repr

/-- JavaScript Math.round: round half toward positive infinity. -/
def jsRound (x : ℚ) : ℤ :=
  ⌊x + 1 / 2⌋

/-- The JavaScript remainder operator a % b: truncated division, the
result takes the sign of the dividend. -/
def jsMod (a b : ℚ) : ℚ :=
  a - b * (if 0 ≤ a / b then (⌊a / b⌋ : ℚ) else (⌈a / b⌉ : ℚ))

/-- AnimationEngine.rgbToHsl.  The switch on max matches the first of
r, g, b equal to the maximum, exactly as the JavaScript switch does. -/
def rgbToHsl (r g b : ℚ) : HSL :=
  let r' := r / 255
  let g' := g / 255
  let b' := b / 255
  let mx := max r' (max g' b')
  let mn := min r' (min g' b')
  let l := (mx + mn) / 2
  if mx = mn then ⟨0, 0, l⟩
  else
    let d := mx - mn
    let s := if 1 / 2 < l then d / (2 - mx - mn) else d / (mx + mn)
    let h :=
      if mx = r' then ((g' - b') / d + (if g' < b' then (6 : ℚ) else 0)) / 6
      else if mx = g' then ((b' - r') / d + 2) / 6
      else ((r' - g') / d + 4) / 6
    ⟨h * 360, s, l⟩

/-- The hue2rgb helper inside AnimationEngine.hslToRgb. -/
def hue2rgb (p q t : ℚ) : ℚ :=
  let t1 := if t < 0 then t + 1 else t
  let t2 := if 1 < t1 then t1 - 1 else t1
  if t2 < 1 / 6 then p + (q - p) * 6 * t2
  else if t2 < 1 / 2 then q
  else if t2 < 2 / 3 then p + (q - p) * (2 / 3 - t2) * 6
  else p

/-- AnimationEngine.hslToRgb, returning the rounded 0..255 channels. -/
def hslToRgb (h0 s l : ℚ) : ℤ × ℤ × ℤ :=
  let h := h0 / 360
  if s = 0 then (jsRound (l * 255), jsRound (l * 255), jsRound (l * 255))
  else
    let q := if l < 1 / 2 then l * (1 + s) else l + s - l * s
    let p := 2 * l - q
    (jsRound (hue2rgb p q (h + 1 / 3) * 255),
     jsRound (hue2rgb p q h * 255),
     jsRound (hue2rgb p q (h - 1 / 3) * 255))

/-! The animation effects.  Math.sin, Math.cos and Math.PI are platform
functions on floating-point numbers; they enter the shallow embedding as
an abstract Host record, and every theorem below holds for an arbitrary
host.  Math.random is an ambient stream of values consumed in call
order, passed separately because it changes between render calls. -/

/-- Platform math functions used by the effects. -/
structure Host where
  sin : ℚ → ℚ
  cos : ℚ → ℚ
  pi : ℚ

/-- A concrete host instance used by witnesses and counterexamples. -/
def hostZero : Host := ⟨fun _ => 0, fun _ => 0, 0⟩

/-- AnimationEngine.seededRandom: frac(sin(seed) * 10000). -/
def seededRandom (host : Host) (seed : ℤ) : ℚ :=
  let x := host.sin (seed : ℚ) * 10000
  x - ⌊x⌋

/-- Seed of sparkle candidate i at a given time: i*1000 + floor(time*3). -/
def sparkleSeed (i : ℕ) (time : ℚ) : ℤ :=
  (i : ℤ) * 1000 + ⌊time * 3⌋

/-- Grid column of sparkle candidate i: floor(seededRandom(seed) * gridWidth). -/
def sparkleX (host : Host) (i : ℕ) (time : ℚ) (gridWidth : ℕ) : ℤ :=
  ⌊seededRandom host (sparkleSeed i time) * gridWidth⌋

/-- Grid row of sparkle candidate i: floor(seededRandom(seed+1) * gridHeight). -/
def sparkleY (host : Host) (i : ℕ) (time : ℚ) (gridHeight : ℕ) : ℤ :=
  ⌊seededRandom host (sparkleSeed i time + 1) * gridHeight⌋

/-- The pixel grid delivered by PixelateEngine.getPixelGrid. -/
abbrev Grid : Type := List (List Cell)

/-- this.pixelGrid[y]?.[x] — undefined-safe double indexing. -/
def cellAt (grid : Grid) (y x : ℕ) : Option Cell :=
  (List.get? grid y).bind fun row => List.get? row x

/-- Indexing with integer coordinates (sparkle positions are floors). -/
def cellAtZ (grid : Grid) (y x : ℤ) : Option Cell :=
  if 0 ≤ y ∧ 0 ≤ x then cellAt grid y.toNat x.toNat else Option.none

/-- One ctx.fillRect draw command: fill colour channels, alpha, rectangle,
plus the grid cell (x, y) the command renders, if any (the background
clear carries no cell). -/
structure DrawCmd where
  r : ℤ
  g : ℤ
  b : ℤ
  alpha : ℚ
  x : ℚ
  y : ℚ
  w : ℚ
  h : ℚ
  cell : Option (ℕ × ℕ)
deriving DecidableEq, Repr

/-- The `if (!pixel || pixel.a < 10) continue` guard shared by every
effect loop: emit nothing for a missing cell or one whose alpha is below
the skip threshold 10. -/
def skipLow (oc : Option Cell) (f : Cell → List DrawCmd) : List DrawCmd :=
  match oc with
  | Option.none => []
  | some p => if p.a < 10 then [] else f p

/-- The effect selector (the default switch branch renders static). -/
inductive Effect where
  | none
  | glitch
  | float
  | sparkle
  | wave
  | rainbow
deriving DecidableEq, Repr

/-- AnimationEngine.renderStatic. -/
def renderStatic (grid : Grid) (ps gw gh : ℕ) : List DrawCmd :=
  (List.range gh).flatMap fun y =>
    (List.range gw).flatMap fun x =>
      skipLow (cellAt grid y x) fun p =>
        [⟨p.r, p.g, p.b, (p.a : ℚ) / 255,
          ((x * ps : ℕ) : ℚ), ((y * ps : ℕ) : ℚ), (ps : ℚ), (ps : ℚ),
          some (x, y)⟩]

/-- One glitch line: starting row, horizontal offset (in blocks), row
span. -/
structure GlitchLine where
  y : ℤ
  offset : ℚ
  height : ℤ
deriving DecidableEq, Repr

/-- The glitch-line sampling loop of renderGlitch.  Each iteration draws
one random for the activation test and, when it passes, three more for
row, offset and height; the second component is the index of the next
unconsumed random. -/
def glitchGenLines (rand : ℕ → ℚ) (intensity gh : ℕ) :
    List GlitchLine × ℕ :=
  (List.range (intensity / 2 + 1)).foldl
    (fun st _ =>
      if rand st.2 < (1 / 10 : ℚ) * intensity then
        (st.1 ++ [⟨⌊rand (st.2 + 1) * gh⌋,
                   (rand (st.2 + 2) - 1 / 2) * intensity * 2,
                   ⌊rand (st.2 + 3) * 3⌋ + 1⟩], st.2 + 4)
      else (st.1, st.2 + 1))
    ([], 0)

/-- Pixel offset of a row from the first glitch line covering it. -/
def glitchLineOffset (lines : List GlitchLine) (y ps : ℕ) : ℚ :=
  match lines.find? (fun L => decide (L.y ≤ (y : ℤ)) &&
      decide ((y : ℤ) < L.y + L.height)) with
  | some L => L.offset * ps
  | Option.none => 0

/-- Per-row horizontal offsets of renderGlitch: the glitch-line offset
plus, with probability 0.02*intensity per row, a micro-jitter drawn from
the random stream (one random for the test, one more when it passes). -/
def glitchRowOffsets (rand : ℕ → ℚ) (k0 intensity ps gh : ℕ) : List ℚ :=
  ((List.range gh).foldl
    (fun st y =>
      let base := glitchLineOffset st.2.2 y ps
      if rand st.1 < (1 / 50 : ℚ) * intensity then
        (st.1 + 2,
         st.2.1 ++ [base + (rand (st.1 + 1) - 1 / 2) * intensity * ps * (1 / 2)],
         st.2.2)
      else (st.1 + 1, st.2.1 ++ [base], st.2.2))
    (k0, [], (glitchGenLines rand intensity gh).1)).2.1

/-- AnimationEngine.renderGlitch: three passes per cell (red channel
shifted one way, cyan shifted the other, base colour at reduced alpha),
with row offsets from the frame-local random glitch lines and jitter. -/
def renderGlitch (host : Host) (rand : ℕ → ℚ) (intensity : ℕ) (time : ℚ)
    (grid : Grid) (ps gw gh : ℕ) : List DrawCmd :=
  let k0 := (glitchGenLines rand intensity gh).2
  let offs := glitchRowOffsets rand k0 intensity ps gh
  let rgbSplit := host.sin (time * 10) * intensity * (3 / 10)
  (List.range gh).flatMap fun y =>
    let xOff := offs.getD y 0
    (List.range gw).flatMap fun x =>
      skipLow (cellAt grid y x) fun p =>
        [⟨p.r, 0, 0, (p.a : ℚ) / 255 * (4 / 5),
          (x * ps : ℕ) + xOff - rgbSplit, ((y * ps : ℕ) : ℚ), (ps : ℚ), (ps : ℚ),
          some (x, y)⟩,
         ⟨0, p.g, p.b, (p.a : ℚ) / 255 * (4 / 5),
          (x * ps : ℕ) + xOff + rgbSplit, ((y * ps : ℕ) : ℚ), (ps : ℚ), (ps : ℚ),
          some (x, y)⟩,
         ⟨p.r, p.g, p.b, (p.a : ℚ) / 255 * (2 / 5),
          (x * ps : ℕ) + xOff, ((y * ps : ℕ) : ℚ), (ps : ℚ), (ps : ℚ),
          some (x, y)⟩]

/-- AnimationEngine.renderFloat: a rigid-body oscillation with a flat
shadow pass followed by a breathing-brightness main pass. -/
def renderFloat (host : Host) (intensity : ℕ) (time : ℚ)
    (grid : Grid) (ps gw gh : ℕ) : List DrawCmd :=
  let floatY := host.sin (time * 2) * intensity * 2
  let floatX := host.cos (time * (3 / 2)) * intensity * (1 / 2)
  let shadows := (List.range gh).flatMap fun y =>
    (List.range gw).flatMap fun x =>
      skipLow (cellAt grid y x) fun _ =>
        [⟨0, 0, 0, 3 / 10,
          (x * ps : ℕ) + floatX + 4, (y * ps : ℕ) + floatY + 4,
          (ps : ℚ), (ps : ℚ), some (x, y)⟩]
  let mains := (List.range gh).flatMap fun y =>
    (List.range gw).flatMap fun x =>
      skipLow (cellAt grid y x) fun p =>
        let breathe := 9 / 10 + host.sin (time * 3) * (1 / 10) * ((intensity : ℚ) / 10)
        [⟨min 255 ⌊(p.r : ℚ) * breathe⌋, min 255 ⌊(p.g : ℚ) * breathe⌋,
          min 255 ⌊(p.b : ℚ) * breathe⌋, (p.a : ℚ) / 255,
          (x * ps : ℕ) + floatX, (y * ps : ℕ) + floatY,
          (ps : ℚ), (ps : ℚ), some (x, y)⟩]
  shadows ++ mains

/-- AnimationEngine.renderSparkle: the static base pass followed by
intensity*5 seeded sparkle candidates with sin^2 brightness gating. -/
def renderSparkle (host : Host) (intensity : ℕ) (time : ℚ)
    (grid : Grid) (ps gw gh : ℕ) : List DrawCmd :=
  let base := renderStatic grid ps gw gh
  let sparkles := (List.range (intensity * 5)).flatMap fun i =>
    let x := sparkleX host i time gw
    let y := sparkleY host i time gh
    skipLow (cellAtZ grid y x) fun _ =>
      let phase := jsMod (time * 5 + i * (1 / 2)) (host.pi * 2)
      let brightness := host.sin phase ^ 2
      if (3 / 10 : ℚ) < brightness then
        let glowSize := (ps : ℚ) * (1 + brightness * (1 / 2))
        let glowX := x * ps + (ps - glowSize) / 2
        let glowY := y * ps + (ps - glowSize) / 2
        if (3 / 5 : ℚ) < brightness then
          [⟨255, 255, 255, brightness * (4 / 5), glowX, glowY, glowSize, glowSize,
            some (x.toNat, y.toNat)⟩,
           ⟨255, 255, 255, brightness * (3 / 10), glowX - ps, glowY - ps,
            glowSize + ps * 2, glowSize + ps * 2, some (x.toNat, y.toNat)⟩]
        else
          [⟨255, 255, 255, brightness * (4 / 5), glowX, glowY, glowSize, glowSize,
            some (x.toNat, y.toNat)⟩]
      else []
  base ++ sparkles

/-- AnimationEngine.renderWave: two-frequency sinusoidal distortion. -/
def renderWave (host : Host) (intensity : ℕ) (time : ℚ)
    (grid : Grid) (ps gw gh : ℕ) : List DrawCmd :=
  (List.range gh).flatMap fun y =>
    let waveX := host.sin (y * (3 / 10) + time * 3) * intensity * (4 / 5)
    let waveY := host.sin (y * (1 / 5) + time * 2) * intensity * (3 / 10)
    (List.range gw).flatMap fun x =>
      skipLow (cellAt grid y x) fun p =>
        let localWave := host.sin (x * (2 / 5) + time * 4) * intensity * (1 / 5)
        [⟨p.r, p.g, p.b, (p.a : ℚ) / 255,
          (x * ps : ℕ) + waveX, (y * ps : ℕ) + waveY + localWave,
          (ps : ℚ), (ps : ℚ), some (x, y)⟩]

/-- Hue shift of renderRainbow: (x + y + time*50*(intensity/5)) % 360. -/
def rainbowHueShift (x y intensity : ℕ) (time : ℚ) : ℚ :=
  jsMod ((x : ℚ) + y + time * 50 * ((intensity : ℚ) / 5)) 360

/-- The shifted hue of renderRainbow: (h + hueShift*(intensity/10)) % 360. -/
def rainbowShiftedHue (h hueShift : ℚ) (intensity : ℕ) : ℚ :=
  jsMod (h + hueShift * ((intensity : ℚ) / 10)) 360

/-- The saturation boost of renderRainbow: min(1, s + 0.2*(intensity/10)). -/
def rainbowSatBoost (s : ℚ) (intensity : ℕ) : ℚ :=
  min 1 (s + (1 / 5) * ((intensity : ℚ) / 10))

/-- The colour renderRainbow draws for one cell. -/
def rainbowCellColor (p : Cell) (x y intensity : ℕ) (time : ℚ) : ℤ × ℤ × ℤ :=
  let hueShift := rainbowHueShift x y intensity time
  let hsl := rgbToHsl p.r p.g p.b
  hslToRgb (rainbowShiftedHue hsl.h hueShift intensity)
    (rainbowSatBoost hsl.s intensity) hsl.l

/-- AnimationEngine.renderRainbow. -/
def renderRainbow (intensity : ℕ) (time : ℚ)
    (grid : Grid) (ps gw gh : ℕ) : List DrawCmd :=
  (List.range gh).flatMap fun y =>
    (List.range gw).flatMap fun x =>
      skipLow (cellAt grid y x) fun p =>
        let c := rainbowCellColor p x y intensity time
        [⟨c.1, c.2.1, c.2.2, (p.a : ℚ) / 255,
          ((x * ps : ℕ) : ℚ), ((y * ps : ℕ) : ℚ), (ps : ℚ), (ps : ℚ),
          some (x, y)⟩]

/-- AnimationEngine.render: clear the canvas to its dark background, then
dispatch on the selected effect (the default branch renders static). -/
def render (e : Effect) (host : Host) (rand : ℕ → ℚ) (intensity : ℕ)
    (time : ℚ) (grid : Grid) (ps gw gh : ℕ) : List DrawCmd :=
  ⟨15, 15, 35, 1, 0, 0, ((gw * ps : ℕ) : ℚ), ((gh * ps : ℕ) : ℚ), Option.none⟩ ::
  (match e with
   | Effect.glitch => renderGlitch host rand intensity time grid ps gw gh
   | Effect.float => renderFloat host intensity time grid ps gw gh
   | Effect.sparkle => renderSparkle host intensity time grid ps gw gh
   | Effect.wave => renderWave host intensity time grid ps gw gh
   | Effect.rainbow => renderRainbow intensity time grid ps gw gh
   | Effect.none => renderStatic grid ps gw gh)

/-- A draw command respects the alpha-skip policy for a grid when it is
the untargeted background clear or targets an existing cell of alpha at
least 10. -/
def cellOk (grid : Grid) (cmd : DrawCmd) : Bool :=
  match cmd.cell with
  | Option.none => true
  | some (x, y) =>
    match cellAt grid y x with
    | Option.none => false
    | some p => decide (10 ≤ p.a)

end PixelPulse

namespace PixelPulse

/-- C1: for a loaded source image with positive dimensions, any blockSize
in [4,64] and positive bounding box, getPixelatedData computes
scale = min(maxW/srcW, maxH/srcH, 1), scaledW/H = floor(src * scale),
gridW/H = ceil(scaled / blockSize), stores output = grid * blockSize,
and both stored output dimensions are exact multiples of blockSize. -/
theorem getPixelatedData_geometry (host : CanvasHost) (s : PEState)
    (img : ImageBitmap) (maxW maxH : ℚ)
    (him : s.originalImage = some img)
    (hw : 0 < img.width) (hh : 0 < img.height)
    (hbs1 : 4 ≤ s.pixelSize) (hbs2 : s.pixelSize ≤ 64)
    (hmw : 0 < maxW) (hmh : 0 < maxH) :
    (getPixelatedData host s maxW maxH).2.outputWidth =
      ⌈((⌊(img.width : ℚ) * min (maxW / img.width) (min (maxH / img.height) 1)⌋ : ℚ)
        / s.pixelSize)⌉ * s.pixelSize ∧
    (getPixelatedData host s maxW maxH).2.outputHeight =
      ⌈((⌊(img.height : ℚ) * min (maxW / img.width) (min (maxH / img.height) 1)⌋ : ℚ)
        / s.pixelSize)⌉ * s.pixelSize ∧
    (s.pixelSize : ℤ) ∣ (getPixelatedData host s maxW maxH).2.outputWidth ∧
    (s.pixelSize : ℤ) ∣ (getPixelatedData host s maxW maxH).2.outputHeight := by
  obtain ⟨oi, ps, ow, oh⟩ := s
  cases him
  exact ⟨rfl, rfl, dvd_mul_left _ _, dvd_mul_left _ _⟩

/-- Concrete 640x480 bitmap used to witness the geometry theorem. -/
def c1Img : ImageBitmap := ⟨640, 480, fun _ _ => ⟨0, 0, 0, 255⟩⟩

/-- Concrete canvas host used by witnesses. -/
def c1Host : CanvasHost := ⟨fun _ _ _ _ _ => ⟨0, 0, 0, 255⟩⟩

/-- Engine state with the witness image loaded and blockSize 8. -/
def c1State : PEState := ⟨some c1Img, 8, 0, 0⟩

/-- C1 witness: a 640x480 image, blockSize 8, 400x400 bounding box. -/
theorem getPixelatedData_geometry_witness :
    (c1State.originalImage = some c1Img ∧ 0 < c1Img.width ∧ 0 < c1Img.height ∧
      4 ≤ c1State.pixelSize ∧ c1State.pixelSize ≤ 64 ∧
      (0 : ℚ) < 400 ∧ (0 : ℚ) < 400) ∧
    ((getPixelatedData c1Host c1State 400 400).2.outputWidth =
      ⌈((⌊(c1Img.width : ℚ) *
          min ((400 : ℚ) / c1Img.width) (min ((400 : ℚ) / c1Img.height) 1)⌋ : ℚ)
        / c1State.pixelSize)⌉ * c1State.pixelSize ∧
    (getPixelatedData c1Host c1State 400 400).2.outputHeight =
      ⌈((⌊(c1Img.height : ℚ) *
          min ((400 : ℚ) / c1Img.width) (min ((400 : ℚ) / c1Img.height) 1)⌋ : ℚ)
        / c1State.pixelSize)⌉ * c1State.pixelSize ∧
    (c1State.pixelSize : ℤ) ∣ (getPixelatedData c1Host c1State 400 400).2.outputWidth ∧
    (c1State.pixelSize : ℤ) ∣ (getPixelatedData c1Host c1State 400 400).2.outputHeight) :=
  ⟨⟨rfl, by decide, by decide, by decide, by decide, by norm_num, by norm_num⟩,
    getPixelatedData_geometry c1Host c1State c1Img 400 400 rfl (by decide) (by decide)
      (by decide) (by decide) (by norm_num) (by norm_num)⟩

/-- C5: with no image loaded, getPixelatedData, getPixelGrid and
renderToCanvas each return null (respectively leave the canvas alone)
and leave the engine state unchanged; being total Lean functions they
raise no exception. -/
theorem noImage_noOp (host : CanvasHost) (ps : ℕ) (ow oh : ℤ)
    (canvas : Canvas) (maxW maxH : ℚ) :
    getPixelatedData host ⟨Option.none, ps, ow, oh⟩ maxW maxH =
      (Option.none, ⟨Option.none, ps, ow, oh⟩) ∧
    getPixelGrid host ⟨Option.none, ps, ow, oh⟩ =
      (Option.none, ⟨Option.none, ps, ow, oh⟩) ∧
    renderToCanvas host ⟨Option.none, ps, ow, oh⟩ canvas maxW maxH =
      (canvas, ⟨Option.none, ps, ow, oh⟩) :=
  ⟨rfl, rfl, rfl⟩

/-- C2: an uncancelled export with frames = 30 and captureInterval = 2
(engine at default speed 5, previously running) performs exactly 30
add-frame calls over 60 rendered ticks, and the progress value reported
at the moment capture ends and encoding begins is exactly 50. -/
theorem export_thirty_frames :
    (startExport ⟨true, 0, 0, 5⟩ 30 2 Option.none 100).addFrameCalls = 30 ∧
    (startExport ⟨true, 0, 0, 5⟩ 30 2 Option.none 100).frameCounter = 60 ∧
    (startExport ⟨true, 0, 0, 5⟩ 30 2 Option.none 100).progressLog.head? = some 50 ∧
    (startExport ⟨true, 0, 0, 5⟩ 30 2 Option.none 100).renderStarted = true := by
  decide

/-- C4 counterexample: engine running with clock at 1 second before the
export; cancelling after 2 capture ticks leaves the running flag restored
but the clock at 0, not at its pre-export value 1. -/
theorem export_cancel_clock_not_restored :
    ¬ ((startExport ⟨true, 1, 0, 5⟩ 30 2 (some 2) 100).anim.isRunning = true ∧
       (startExport ⟨true, 1, 0, 5⟩ 30 2 (some 2) 100).anim.time = 1) := by
  decide

/-- The loop body never changes the exporting flag. -/
theorem expBody_isExporting (total interval : ℕ) (s : ExpoState) :
    (expBody total interval s).isExporting = s.isExporting := by
  unfold expBody expAddFrame
  dsimp only
  split
  · split <;> rfl
  · rfl

/-- The loop body advances the engine clock by one step and touches no
other engine field. -/
theorem expBody_anim (total interval : ℕ) (s : ExpoState) :
    (expBody total interval s).anim =
      { s.anim with time := s.anim.time + tickStep s.anim } := by
  unfold expBody expAddFrame
  dsimp only
  split
  · split <;> rfl
  · rfl

/-- The loop body bumps the tick counter by one. -/
theorem expBody_counter (total interval : ℕ) (s : ExpoState) :
    (expBody total interval s).frameCounter = s.frameCounter + 1 := by
  unfold expBody expAddFrame
  dsimp only
  split
  · split <;> rfl
  · rfl

/-- Captured-frame count after the body, in terms of the tick counter. -/
theorem expBody_captured (total interval : ℕ) (s : ExpoState)
    (hx : s.isExporting = true) :
    (expBody total interval s).framesCaptured =
      if (s.frameCounter + 1) % interval = 0
      then s.framesCaptured + 1 else s.framesCaptured := by
  unfold expBody expAddFrame
  dsimp only
  split
  · simp [hx]
  · simp

/-- Iterating the body n times adds n clock steps and preserves the
running flag, the speed and the frame count of the engine. -/
theorem expBody_iterate_anim (total interval n : ℕ) (s : ExpoState) :
    ((expBody total interval)^[n] s).anim.time =
        s.anim.time + n * ((2 / 125) * ((s.anim.speed : ℚ) / 5)) ∧
      ((expBody total interval)^[n] s).anim.isRunning = s.anim.isRunning ∧
      ((expBody total interval)^[n] s).anim.speed = s.anim.speed ∧
      ((expBody total interval)^[n] s).anim.frameCount = s.anim.frameCount := by
  induction n generalizing s with
  | zero => simp
  | succ n ih =>
    rw [Function.iterate_succ_apply]
    obtain ⟨h1, h2, h3, h4⟩ := ih (expBody total interval s)
    rw [expBody_anim] at h1 h2 h3 h4
    refine ⟨?_, h2, h3, h4⟩
    rw [h1]
    dsimp only [tickStep]
    push_cast
    ring

/-- When cancellation hits after c ticks and capture could not have
completed by then, the loop runs exactly the remaining body iterations
and then exits through the cancelled branch. -/
theorem expLoop_cancelled (wasR : Bool) (total interval c : ℕ)
    (hc : c / interval < total) :
    ∀ (r : ℕ) (fuel : ℕ) (s : ExpoState), s.isExporting = true →
      s.frameCounter + r = c →
      s.framesCaptured = s.frameCounter / interval →
      r < fuel →
      expLoop wasR total interval (some c) fuel s =
        expFinish wasR
          { (expBody total interval)^[r] s with isExporting := false } := by
  intro r
  induction r with
  | zero =>
    intro fuel s hx hcnt hcap hf
    match fuel, hf with
    | fuel + 1, _ =>
      show expLoop wasR total interval (some c) (fuel + 1) s = _
      unfold expLoop
      have hcc : c ≤ s.frameCounter := by omega
      simp only [applyCancel, hcc, if_pos]
      simp [Function.iterate_zero_apply]
  | succ r ih =>
    intro fuel s hx hcnt hcap hf
    match fuel, hf with
    | fuel + 1, hf =>
      show expLoop wasR total interval (some c) (fuel + 1) s = _
      unfold expLoop
      have hcc : ¬ c ≤ s.frameCounter := by omega
      simp only [applyCancel, hcc, if_neg, not_false_eq_true]
      have hlt : s.framesCaptured < total := by
        have h1 : s.frameCounter / interval ≤ c / interval :=
          Nat.div_le_div_right (by omega)
        omega
      rw [if_neg (not_or.mpr ⟨by simp [hx], by omega⟩)]
      rw [ih fuel (expBody total interval s)
        (by rw [expBody_isExporting]; exact hx)
        (by rw [expBody_counter]; omega)
        ?_ (by omega)]
      · rw [← Function.iterate_succ_apply]
      · rw [expBody_captured total interval s hx, expBody_counter,
          Nat.succ_div, hcap]
        by_cases hmod : (s.frameCounter + 1) % interval = 0
        · simp [hmod, Nat.dvd_iff_mod_eq_zero]
        · simp [hmod, Nat.dvd_iff_mod_eq_zero]

/-- C4 (amended): cancelling mid-capture restores the engine's running
flag to its pre-export value, but not the clock: when the engine was
running before the export it is restarted with time = 0, and when it was
stopped the clock keeps the capture-advanced value c ticks * 0.016 *
(speed / 5) instead of the pre-export value. -/
theorem export_cancel_restores_runflag (s0 : AnimState)
    (frames interval c fuel : ℕ)
    (hc : c / interval < frames) (hf : c < fuel) :
    (startExport s0 frames interval (some c) fuel).anim.isRunning =
        s0.isRunning ∧
      (startExport s0 frames interval (some c) fuel).anim.time =
        if s0.isRunning then 0
        else c * ((2 / 125) * ((s0.speed : ℚ) / 5)) := by
  unfold startExport
  rw [expLoop_cancelled s0.isRunning frames interval c hc c fuel _ rfl
    (by simp) (by simp) hf]
  have hiter := expBody_iterate_anim frames interval c
    { anim := animReset (animStop s0), framesCaptured := 0, frameCounter := 0,
      isExporting := true, addFrameCalls := 0, progressLog := [],
      renderStarted := false }
  obtain ⟨ht, hrun, -, -⟩ := hiter
  have hrun' : ((expBody frames interval)^[c]
      { anim := animReset (animStop s0), framesCaptured := 0,
        frameCounter := 0, isExporting := true, addFrameCalls := 0,
        progressLog := [], renderStarted := false }).anim.isRunning = false := by
    simpa [animReset, animStop] using hrun
  have ht' : ((expBody frames interval)^[c]
      { anim := animReset (animStop s0), framesCaptured := 0,
        frameCounter := 0, isExporting := true, addFrameCalls := 0,
        progressLog := [], renderStarted := false }).anim.time =
      (c : ℚ) * ((2 / 125) * ((s0.speed : ℚ) / 5)) := by
    simpa [animReset, animStop] using ht
  cases hb : s0.isRunning
  · simp [expFinish, hb, hrun', ht']
  · simp [expFinish, hb, animStart, hrun', ht']

/-- C4 amended-claim witness: engine stopped with clock 7 before the
export; cancellation after 5 ticks leaves it stopped with the
capture-advanced clock. -/
theorem export_cancel_restores_runflag_witness :
    (5 / 2 < 30 ∧ 5 < 100) ∧
    ((startExport ⟨false, 7, 3, 5⟩ 30 2 (some 5) 100).anim.isRunning =
        (⟨false, 7, 3, 5⟩ : AnimState).isRunning ∧
      (startExport ⟨false, 7, 3, 5⟩ 30 2 (some 5) 100).anim.time =
        if (⟨false, 7, 3, 5⟩ : AnimState).isRunning then 0
        else 5 * ((2 / 125) * (((⟨false, 7, 3, 5⟩ : AnimState).speed : ℚ) / 5))) :=
  ⟨⟨by decide, by decide⟩,
    export_cancel_restores_runflag ⟨false, 7, 3, 5⟩ 30 2 5 100
      (by decide) (by decide)⟩

/-- C9: two times with the same floor(time*3) give every sparkle
candidate the same seed, hence the same derived grid position, for any
platform sin function. -/
theorem sparkle_position_stable (host : Host) (i : ℕ) (t1 t2 : ℚ)
    (gw gh : ℕ) (hfloor : ⌊t1 * 3⌋ = ⌊t2 * 3⌋) :
    sparkleX host i t1 gw = sparkleX host i t2 gw ∧
    sparkleY host i t1 gh = sparkleY host i t2 gh := by
  unfold sparkleX sparkleY sparkleSeed
  rw [hfloor]
  exact ⟨rfl, rfl⟩

/-- C9 witness: candidate 2 at times 0 and 1/4 (both in the first
floor(time*3) window) on a 5x7 grid. -/
theorem sparkle_position_stable_witness :
    (⌊(0 : ℚ) * 3⌋ = ⌊(1 / 4 : ℚ) * 3⌋) ∧
    (sparkleX hostZero 2 0 5 = sparkleX hostZero 2 (1 / 4) 5 ∧
     sparkleY hostZero 2 0 7 = sparkleY hostZero 2 (1 / 4) 7) :=
  ⟨by norm_num, sparkle_position_stable hostZero 2 0 (1 / 4) 5 7 (by norm_num)⟩

/-- C10: seededRandom returns a value in [0,1) for every seed, so the
sparkle positions floor(seededRandom(seed)*gridWidth),
floor(seededRandom(seed+1)*gridHeight) are in bounds whenever the grid
dimensions are positive. -/
theorem seededRandom_in_bounds (host : Host) (seed : ℤ) (i : ℕ) (t : ℚ)
    (gw gh : ℕ) (hw : 0 < gw) (hh : 0 < gh) :
    (0 ≤ seededRandom host seed ∧ seededRandom host seed < 1) ∧
    (0 ≤ sparkleX host i t gw ∧ sparkleX host i t gw < (gw : ℤ)) ∧
    (0 ≤ sparkleY host i t gh ∧ sparkleY host i t gh < (gh : ℤ)) := by
  have key : ∀ s : ℤ, 0 ≤ seededRandom host s ∧ seededRandom host s < 1 := by
    intro s
    have h1 := Int.floor_le (host.sin (s : ℚ) * 10000)
    have h2 := Int.lt_floor_add_one (host.sin (s : ℚ) * 10000)
    constructor
    · show (0 : ℚ) ≤ host.sin (s : ℚ) * 10000 - (⌊host.sin (s : ℚ) * 10000⌋ : ℚ)
      linarith
    · show host.sin (s : ℚ) * 10000 - (⌊host.sin (s : ℚ) * 10000⌋ : ℚ) < 1
      linarith
  have bx : ∀ (s : ℤ) (w : ℕ), 0 < w →
      0 ≤ ⌊seededRandom host s * w⌋ ∧ ⌊seededRandom host s * w⌋ < (w : ℤ) := by
    intro s w hwpos
    obtain ⟨h0, h1⟩ := key s
    constructor
    · exact Int.floor_nonneg.mpr (mul_nonneg h0 (by positivity))
    · rw [Int.floor_lt]
      push_cast
      calc seededRandom host s * w < 1 * w := by
            apply mul_lt_mul_of_pos_right h1
            exact_mod_cast hwpos
        _ = w := one_mul _
  exact ⟨key seed, bx _ gw hw, bx _ gh hh⟩

/-- C10 witness: seed 42, candidate 7 at time 0 on a 3x4 grid. -/
theorem seededRandom_in_bounds_witness :
    (0 < 3 ∧ 0 < 4) ∧
    ((0 ≤ seededRandom hostZero 42 ∧ seededRandom hostZero 42 < 1) ∧
     (0 ≤ sparkleX hostZero 7 0 3 ∧ sparkleX hostZero 7 0 3 < (3 : ℤ)) ∧
     (0 ≤ sparkleY hostZero 7 0 4 ∧ sparkleY hostZero 7 0 4 < (4 : ℤ))) :=
  ⟨⟨by decide, by decide⟩,
    seededRandom_in_bounds hostZero 42 7 0 3 4 (by decide) (by decide)⟩

/-- With every Math.random draw 0.99 at intensity 5, no glitch line
activates and no jitter fires, so the row offset is 0. -/
theorem glitchEvalHighStream :
    renderGlitch hostZero (fun _ => 99 / 100) 5 0
      [[⟨100, 150, 200, 255⟩]] 4 1 1 =
    [⟨100, 0, 0, 4 / 5, 0, 0, 4, 4, some (0, 0)⟩,
     ⟨0, 150, 200, 4 / 5, 0, 0, 4, 4, some (0, 0)⟩,
     ⟨100, 150, 200, 2 / 5, 0, 0, 4, 4, some (0, 0)⟩] := by
  have hlines : glitchGenLines (fun _ => 99 / 100) 5 1 = ([], 3) := by
    norm_num [glitchGenLines, List.range_succ]
  have hoffs : glitchRowOffsets (fun _ => 99 / 100) 3 5 4 1 = [0] := by
    norm_num [glitchRowOffsets, glitchGenLines, glitchLineOffset,
      List.range_succ]
  norm_num [renderGlitch, hlines, hoffs, hostZero, List.range_succ, skipLow,
    cellAt, List.flatMap_append, List.flatMap_cons, List.flatMap_nil]

/-- With every Math.random draw 0 at intensity 5, three glitch lines
covering row 0 activate with offset -5 blocks and the jitter fires,
shifting row 0 by -25 pixels. -/
theorem glitchEvalZeroStream :
    renderGlitch hostZero (fun _ => 0) 5 0
      [[⟨100, 150, 200, 255⟩]] 4 1 1 =
    [⟨100, 0, 0, 4 / 5, -25, 0, 4, 4, some (0, 0)⟩,
     ⟨0, 150, 200, 4 / 5, -25, 0, 4, 4, some (0, 0)⟩,
     ⟨100, 150, 200, 2 / 5, -25, 0, 4, 4, some (0, 0)⟩] := by
  have hlines : glitchGenLines (fun _ => 0) 5 1 =
      ([⟨0, -5, 1⟩, ⟨0, -5, 1⟩, ⟨0, -5, 1⟩], 12) := by
    norm_num [glitchGenLines, List.range_succ]
  have hoffs : glitchRowOffsets (fun _ => 0) 12 5 4 1 = [-25] := by
    norm_num [glitchRowOffsets, glitchGenLines, glitchLineOffset,
      List.range_succ, List.find?]
  norm_num [renderGlitch, hlines, hoffs, hostZero, List.range_succ, skipLow,
    cellAt, List.flatMap_append, List.flatMap_cons, List.flatMap_nil]

/-- C3 counterexample: the glitch effect reads Math.random, so two render
invocations with identical grid, intensity and time but different ambient
random draws produce different draw output. -/
theorem render_glitch_nondeterministic :
    ¬ (render Effect.glitch hostZero (fun _ => 99 / 100) 5 0
         [[⟨100, 150, 200, 255⟩]] 4 1 1 =
       render Effect.glitch hostZero (fun _ => 0) 5 0
         [[⟨100, 150, 200, 255⟩]] 4 1 1) := by
  intro h
  simp only [render] at h
  rw [glitchEvalHighStream, glitchEvalZeroStream] at h
  simp only [List.cons.injEq, DrawCmd.mk.injEq] at h
  norm_num at h

/-- C3 (amended): every effect except glitch is a deterministic function
of (grid, intensity, time): its draw output does not depend on the
ambient Math.random stream.  Glitch consumes the stream, so the original
claim fails for it. -/
theorem render_deterministic_except_glitch (e : Effect)
    (he : e ≠ Effect.glitch) (host : Host) (rand1 rand2 : ℕ → ℚ)
    (intensity : ℕ) (time : ℚ) (grid : Grid) (ps gw gh : ℕ) :
    render e host rand1 intensity time grid ps gw gh =
      render e host rand2 intensity time grid ps gw gh := by
  cases e
  case glitch => exact absurd rfl he
  all_goals rfl

/-- C3 amended-claim witness: the wave effect on a one-cell grid under
two different random streams. -/
theorem render_deterministic_except_glitch_witness :
    (Effect.wave ≠ Effect.glitch) ∧
    render Effect.wave hostZero (fun _ => 0) 5 0 [[⟨1, 2, 3, 255⟩]] 4 1 1 =
      render Effect.wave hostZero (fun _ => 1 / 2) 5 0 [[⟨1, 2, 3, 255⟩]] 4 1 1 :=
  ⟨by decide,
    render_deterministic_except_glitch Effect.wave (by decide) hostZero
      (fun _ => 0) (fun _ => 1 / 2) 5 0 [[⟨1, 2, 3, 255⟩]] 4 1 1⟩

/-- hue2rgb collapses when p = q. -/
theorem hue2rgb_same (a t : ℚ) : hue2rgb a a t = a := by
  unfold hue2rgb
  simp only [sub_self, zero_mul, mul_zero, add_zero]
  split_ifs <;> rfl

/-- C8: with intensity 10, the rainbow effect leaves a pure white cell's
colour unchanged at time 0 at every grid position; the hue shift for the
origin cell at time 9/5 is exactly 180; and a hue shift of 180 at
intensity 10 moves the cell hue by exactly 180 degrees (the
intensity/10 = 1 factor). -/
theorem rainbow_white_and_half_turn :
    (∀ x y : ℕ, rainbowCellColor ⟨255, 255, 255, 255⟩ x y 10 0 =
      (255, 255, 255)) ∧
    rainbowHueShift 0 0 10 (9 / 5) = 180 ∧
    (∀ h : ℚ, rainbowShiftedHue h 180 10 = jsMod (h + 180) 360) := by
  refine ⟨?_, ?_, ?_⟩
  · intro x y
    have hwhite : rgbToHsl ((255 : ℕ) : ℚ) ((255 : ℕ) : ℚ) ((255 : ℕ) : ℚ) =
        ⟨0, 0, 1⟩ := by
      norm_num [rgbToHsl]
    unfold rainbowCellColor
    rw [hwhite]
    have hsat : rainbowSatBoost (0 : ℚ) 10 = 1 / 5 := by
      norm_num [rainbowSatBoost]
    dsimp only
    rw [hsat]
    unfold hslToRgb
    rw [if_neg (by norm_num)]
    have hq : (if (1 : ℚ) < 1 / 2 then (1 : ℚ) * (1 + 1 / 5)
        else 1 + 1 / 5 - 1 * (1 / 5)) = 1 := by
      norm_num
    dsimp only
    rw [hq]
    have hp : (2 : ℚ) * 1 - 1 = 1 := by norm_num
    rw [hp, hue2rgb_same, hue2rgb_same, hue2rgb_same]
    have : jsRound ((1 : ℚ) * 255) = 255 := by
      unfold jsRound
      norm_num
    rw [this]
  · unfold rainbowHueShift jsMod
    norm_num
  · intro h
    unfold rainbowShiftedHue
    norm_num

/-- The skip guard only ever emits commands for a present cell of alpha
at least the threshold 10. -/
theorem mem_skipLow {oc : Option Cell} {f : Cell → List DrawCmd}
    {cmd : DrawCmd} (h : cmd ∈ skipLow oc f) :
    ∃ p, oc = some p ∧ 10 ≤ p.a ∧ cmd ∈ f p := by
  cases oc with
  | none => simp [skipLow] at h
  | some p =>
    by_cases ha : p.a < 10
    · simp [skipLow, ha] at h
    · exact ⟨p, rfl, by omega, by simpa [skipLow, ha] using h⟩

/-- Integer-coordinate lookup success implies natural-coordinate lookup
success at the truncations. -/
theorem cellAtZ_eq_some {grid : Grid} {y x : ℤ} {p : Cell}
    (h : cellAtZ grid y x = some p) :
    cellAt grid y.toNat x.toNat = some p := by
  unfold cellAtZ at h
  split_ifs at h
  exact h

/-- Every static-pass command targets a cell of alpha at least 10. -/
theorem renderStatic_cells (grid : Grid) (ps gw gh : ℕ) :
    ∀ cmd ∈ renderStatic grid ps gw gh, cellOk grid cmd = true := by
  intro cmd hc
  simp only [renderStatic, List.mem_flatMap, List.mem_range] at hc
  obtain ⟨y, -, x, -, hm⟩ := hc
  obtain ⟨p, hp, ha, hmem⟩ := mem_skipLow hm
  simp only [List.mem_singleton] at hmem
  subst hmem
  simpa [cellOk, hp] using ha

/-- Every glitch-pass command targets a cell of alpha at least 10. -/
theorem renderGlitch_cells (host : Host) (rand : ℕ → ℚ) (intensity : ℕ)
    (time : ℚ) (grid : Grid) (ps gw gh : ℕ) :
    ∀ cmd ∈ renderGlitch host rand intensity time grid ps gw gh,
      cellOk grid cmd = true := by
  intro cmd hc
  simp only [renderGlitch, List.mem_flatMap, List.mem_range] at hc
  obtain ⟨y, -, x, -, hm⟩ := hc
  obtain ⟨p, hp, ha, hmem⟩ := mem_skipLow hm
  simp only [List.mem_cons, List.mem_singleton, List.not_mem_nil, or_false]
    at hmem
  rcases hmem with rfl | rfl | rfl <;> simpa [cellOk, hp] using ha

/-- Every float-pass command targets a cell of alpha at least 10. -/
theorem renderFloat_cells (host : Host) (intensity : ℕ) (time : ℚ)
    (grid : Grid) (ps gw gh : ℕ) :
    ∀ cmd ∈ renderFloat host intensity time grid ps gw gh,
      cellOk grid cmd = true := by
  intro cmd hc
  simp only [renderFloat, List.mem_append, List.mem_flatMap, List.mem_range]
    at hc
  rcases hc with ⟨y, -, x, -, hm⟩ | ⟨y, -, x, -, hm⟩ <;>
    obtain ⟨p, hp, ha, hmem⟩ := mem_skipLow hm <;>
    simp only [List.mem_singleton] at hmem <;>
    subst hmem <;>
    simpa [cellOk, hp] using ha

/-- Every sparkle-pass command targets a cell of alpha at least 10. -/
theorem renderSparkle_cells (host : Host) (intensity : ℕ) (time : ℚ)
    (grid : Grid) (ps gw gh : ℕ) :
    ∀ cmd ∈ renderSparkle host intensity time grid ps gw gh,
      cellOk grid cmd = true := by
  intro cmd hc
  simp only [renderSparkle, List.mem_append] at hc
  rcases hc with hc | hc
  · exact renderStatic_cells grid ps gw gh cmd hc
  · simp only [List.mem_flatMap, List.mem_range] at hc
    obtain ⟨i, -, hm⟩ := hc
    obtain ⟨p, hp, ha, hmem⟩ := mem_skipLow hm
    have hcell := cellAtZ_eq_some hp
    split_ifs at hmem
    · simp only [List.mem_cons, List.mem_singleton, List.not_mem_nil, or_false]
        at hmem
      rcases hmem with rfl | rfl <;> simpa [cellOk, hcell] using ha
    · simp only [List.mem_singleton] at hmem
      subst hmem
      simpa [cellOk, hcell] using ha
    · simp at hmem

/-- Every wave-pass command targets a cell of alpha at least 10. -/
theorem renderWave_cells (host : Host) (intensity : ℕ) (time : ℚ)
    (grid : Grid) (ps gw gh : ℕ) :
    ∀ cmd ∈ renderWave host intensity time grid ps gw gh,
      cellOk grid cmd = true := by
  intro cmd hc
  simp only [renderWave, List.mem_flatMap, List.mem_range] at hc
  obtain ⟨y, -, x, -, hm⟩ := hc
  obtain ⟨p, hp, ha, hmem⟩ := mem_skipLow hm
  simp only [List.mem_singleton] at hmem
  subst hmem
  simpa [cellOk, hp] using ha

/-- Every rainbow-pass command targets a cell of alpha at least 10. -/
theorem renderRainbow_cells (intensity : ℕ) (time : ℚ)
    (grid : Grid) (ps gw gh : ℕ) :
    ∀ cmd ∈ renderRainbow intensity time grid ps gw gh,
      cellOk grid cmd = true := by
  intro cmd hc
  simp only [renderRainbow, List.mem_flatMap, List.mem_range] at hc
  obtain ⟨y, -, x, -, hm⟩ := hc
  obtain ⟨p, hp, ha, hmem⟩ := mem_skipLow hm
  simp only [List.mem_singleton] at hmem
  subst hmem
  simpa [cellOk, hp] using ha

/-- C6: for every effect, host, random stream, grid, intensity and time,
every emitted draw command is either the untargeted background clear or
renders a present grid cell of alpha at least the skip threshold 10;
cells with alpha below 10 are skipped entirely. -/
theorem render_skips_low_alpha (e : Effect) (host : Host) (rand : ℕ → ℚ)
    (intensity : ℕ) (time : ℚ) (grid : Grid) (ps gw gh : ℕ) :
    (render e host rand intensity time grid ps gw gh).all (cellOk grid)
      = true := by
  rw [List.all_eq_true]
  intro cmd hc
  cases e <;> simp only [render] at hc <;> rcases List.mem_cons.mp hc with rfl | hc
  case none.inl => rfl
  case none.inr => exact renderStatic_cells grid ps gw gh cmd hc
  case glitch.inl => rfl
  case glitch.inr =>
    exact renderGlitch_cells host rand intensity time grid ps gw gh cmd hc
  case float.inl => rfl
  case float.inr =>
    exact renderFloat_cells host intensity time grid ps gw gh cmd hc
  case sparkle.inl => rfl
  case sparkle.inr =>
    exact renderSparkle_cells host intensity time grid ps gw gh cmd hc
  case wave.inl => rfl
  case wave.inr =>
    exact renderWave_cells host intensity time grid ps gw gh cmd hc
  case rainbow.inl => rfl
  case rainbow.inr =>
    exact renderRainbow_cells intensity time grid ps gw gh cmd hc

/-- hue2rgb on the first linear segment [0, 1/6]. -/
theorem hue2rgb_seg1 (p q t : ℚ) (h0 : 0 ≤ t) (h1 : t ≤ 1 / 6) :
    hue2rgb p q t = p + (q - p) * 6 * t := by
  simp only [hue2rgb]
  rw [if_neg (by linarith : ¬ t < 0), if_neg (by linarith : ¬ (1 : ℚ) < t)]
  by_cases hc : t < 1 / 6
  · rw [if_pos hc]
  · have ht : t = 1 / 6 := le_antisymm h1 (not_lt.mp hc)
    rw [if_neg hc, if_pos (by rw [ht]; norm_num), ht]
    ring

/-- hue2rgb is constantly q on [1/6, 1/2]. -/
theorem hue2rgb_seg2 (p q t : ℚ) (h0 : 1 / 6 ≤ t) (h1 : t ≤ 1 / 2) :
    hue2rgb p q t = q := by
  simp only [hue2rgb]
  rw [if_neg (by linarith : ¬ t < 0), if_neg (by linarith : ¬ (1 : ℚ) < t),
    if_neg (by linarith : ¬ t < 1 / 6)]
  by_cases hc : t < 1 / 2
  · rw [if_pos hc]
  · have ht : t = 1 / 2 := le_antisymm h1 (not_lt.mp hc)
    rw [if_neg hc, if_pos (by rw [ht]; norm_num), ht]
    ring

/-- hue2rgb on the descending segment [1/2, 2/3]. -/
theorem hue2rgb_seg3 (p q t : ℚ) (h0 : 1 / 2 ≤ t) (h1 : t ≤ 2 / 3) :
    hue2rgb p q t = p + (q - p) * (2 / 3 - t) * 6 := by
  simp only [hue2rgb]
  rw [if_neg (by linarith : ¬ t < 0), if_neg (by linarith : ¬ (1 : ℚ) < t),
    if_neg (by linarith : ¬ t < 1 / 6)]
  by_cases hc : t < 1 / 2
  · have ht : t = 1 / 2 := le_antisymm (le_of_lt hc) h0
    rw [if_pos hc, ht]
    ring
  · rw [if_neg hc]
    by_cases hc2 : t < 2 / 3
    · rw [if_pos hc2]
    · have ht : t = 2 / 3 := le_antisymm h1 (not_lt.mp hc2)
      rw [if_neg hc2, ht]
      ring

/-- hue2rgb is constantly p on [2/3, 1]. -/
theorem hue2rgb_seg4 (p q t : ℚ) (h0 : 2 / 3 ≤ t) (h1 : t ≤ 1) :
    hue2rgb p q t = p := by
  simp only [hue2rgb]
  rw [if_neg (by linarith : ¬ t < 0), if_neg (by linarith : ¬ (1 : ℚ) < t),
    if_neg (by linarith : ¬ t < 1 / 6), if_neg (by linarith : ¬ t < 1 / 2),
    if_neg (by linarith : ¬ t < 2 / 3)]

/-- hue2rgb wraps negative arguments up by one. -/
theorem hue2rgb_wrapneg (p q t : ℚ) (h0 : -1 ≤ t) (h1 : t < 0) :
    hue2rgb p q t = hue2rgb p q (t + 1) := by
  simp only [hue2rgb]
  rw [if_pos h1, if_neg (by linarith : ¬ t + 1 < 0),
    if_neg (by linarith : ¬ (1 : ℚ) < t + 1)]

/-- hue2rgb wraps arguments above one down by one. -/
theorem hue2rgb_wrappos (p q t : ℚ) (h0 : 1 < t) (h1 : t ≤ 2) :
    hue2rgb p q t = hue2rgb p q (t - 1) := by
  simp only [hue2rgb]
  rw [if_neg (by linarith : ¬ t < 0), if_pos h0,
    if_neg (by linarith : ¬ t - 1 < 0), if_neg (by linarith : ¬ (1 : ℚ) < t - 1)]

/-- In the chromatic case, hslToRgb recovers q = max and p = min of
the scaled channels, and the saturation is nonzero. -/
theorem hsl_qp_recover (mx mn s q : ℚ) (hmn : 0 ≤ mn) (hlt : mn < mx)
    (hmx : mx ≤ 1)
    (hs : s = if 1 / 2 < (mx + mn) / 2 then (mx - mn) / (2 - mx - mn)
      else (mx - mn) / (mx + mn))
    (hq : q = if (mx + mn) / 2 < 1 / 2 then ((mx + mn) / 2) * (1 + s)
      else (mx + mn) / 2 + s - ((mx + mn) / 2) * s) :
    q = mx ∧ 2 * ((mx + mn) / 2) - q = mn ∧ s ≠ 0 := by
  have hsum : 0 < mx + mn := by linarith
  have h2s : 0 < 2 - mx - mn := by linarith
  have hne1 : mx + mn ≠ 0 := ne_of_gt hsum
  have hne2 : 2 - mx - mn ≠ 0 := ne_of_gt h2s
  have hdpos : 0 < mx - mn := by linarith
  rcases lt_trichotomy ((mx + mn) / 2) (1 / 2) with hc | hc | hc
  · rw [if_neg (by linarith)] at hs
    rw [if_pos hc] at hq
    have hqmx : q = mx := by
      rw [hq, hs]
      field_simp
      ring
    exact ⟨hqmx, by rw [hqmx]; ring,
      hs ▸ div_ne_zero (ne_of_gt hdpos) hne1⟩
  · rw [if_neg (by linarith)] at hs
    rw [if_neg (by linarith)] at hq
    have h1 : mx + mn = 1 := by linarith
    have hqmx : q = mx := by
      rw [hq, hs, h1]
      field_simp
      linarith
    exact ⟨hqmx, by rw [hqmx]; ring,
      hs ▸ div_ne_zero (ne_of_gt hdpos) hne1⟩
  · rw [if_pos hc] at hs
    rw [if_neg (by linarith)] at hq
    have hqmx : q = mx := by
      rw [hq, hs]
      field_simp
      ring
    exact ⟨hqmx, by rw [hqmx]; ring,
      hs ▸ div_ne_zero (ne_of_gt hdpos) hne2⟩

/-- Math.round of a whole number. -/
theorem jsRound_natCast (n : ℕ) : jsRound ((n : ℚ)) = n := by
  unfold jsRound
  rw [Int.floor_eq_iff]
  push_cast
  norm_num


/-- Core round-trip identity on scaled channels in [0,1]: converting to
HSL and back reproduces each channel exactly before rounding. -/
theorem roundtrip_core (x y z : ℚ) (hx0 : 0 ≤ x) (hx1 : x ≤ 1)
    (hy0 : 0 ≤ y) (hy1 : y ≤ 1) (hz0 : 0 ≤ z) (hz1 : z ≤ 1) :
    hslToRgb (rgbToHsl (x * 255) (y * 255) (z * 255)).h
        (rgbToHsl (x * 255) (y * 255) (z * 255)).s
        (rgbToHsl (x * 255) (y * 255) (z * 255)).l =
      (jsRound (x * 255), jsRound (y * 255), jsRound (z * 255)) := by
  have hsimp : ∀ u : ℚ, u * 255 / 255 = u := fun u =>
    mul_div_cancel_right₀ u (by norm_num)
  have h360 : ((360 : ℚ)) ≠ 0 := by norm_num
  simp only [rgbToHsl, hsimp]
  by_cases hach : max x (max y z) = min x (min y z)
  · rw [if_pos hach]
    have hmxx : max x (max y z) ≤ x := by
      rw [hach]; exact min_le_left _ _
    have hmxy : max x (max y z) ≤ y := by
      rw [hach]; exact le_trans (min_le_right _ _) (min_le_left _ _)
    have hmxz : max x (max y z) ≤ z := by
      rw [hach]; exact le_trans (min_le_right _ _) (min_le_right _ _)
    have hex : x = max x (max y z) := le_antisymm (le_max_left _ _) hmxx
    have hey : y = max x (max y z) :=
      le_antisymm (le_max_of_le_right (le_max_left _ _)) hmxy
    have hez : z = max x (max y z) :=
      le_antisymm (le_max_of_le_right (le_max_right _ _)) hmxz
    have hl : (max x (max y z) + min x (min y z)) / 2 = x := by
      rw [← hach, ← hex]; ring
    simp only [hslToRgb]
    rw [if_pos True.intro, hl, show y = x from hey.trans hex.symm,
      show z = x from hez.trans hex.symm]
  · rw [if_neg hach]
    dsimp only
    rcases le_or_lt y x with hyx | hyx
    · rcases le_or_lt z x with hzx | hzx
      · -- max = x
        have hmx : max x (max y z) = x := max_eq_left (max_le hyx hzx)
        rcases le_or_lt z y with hzy | hzy
        · -- min = z
          have hmn : min x (min y z) = z := by
            rw [min_eq_right hzy, min_eq_right (hzy.trans hyx)]
          rw [hmx, hmn] at hach ⊢
          have hzx' : z < x :=
            lt_of_le_of_ne (hzy.trans hyx) (fun h => hach h.symm)
          have hd : (0 : ℚ) < x - z := sub_pos.mpr hzx'
          have hdne : x - z ≠ 0 := ne_of_gt hd
          have hf0 : 0 ≤ (y - z) / (x - z) := div_nonneg (by linarith) hd.le
          have hf1 : (y - z) / (x - z) ≤ 1 := (div_le_one hd).mpr (by linarith)
          rw [if_pos rfl, if_neg (not_lt.mpr hzy), add_zero]
          simp only [hslToRgb]
          obtain ⟨hq, -, hs0⟩ :=
            hsl_qp_recover x z
              (if 1 / 2 < (x + z) / 2 then (x - z) / (2 - x - z)
                else (x - z) / (x + z))
              (if (x + z) / 2 < 1 / 2
                then (x + z) / 2 *
                  (1 + if 1 / 2 < (x + z) / 2 then (x - z) / (2 - x - z)
                    else (x - z) / (x + z))
                else (x + z) / 2 +
                  (if 1 / 2 < (x + z) / 2 then (x - z) / (2 - x - z)
                    else (x - z) / (x + z)) -
                  (x + z) / 2 *
                  (if 1 / 2 < (x + z) / 2 then (x - z) / (2 - x - z)
                    else (x - z) / (x + z)))
              hz0 hzx' hx1 rfl rfl
          rw [if_neg hs0, hq,
            show (2 : ℚ) * ((x + z) / 2) - x = z from by ring,
            mul_div_cancel_right₀ _ h360]
          rw [hue2rgb_seg2 z x ((y - z) / (x - z) / 6 + 1 / 3)
              (by linarith) (by linarith),
            hue2rgb_seg1 z x ((y - z) / (x - z) / 6)
              (by linarith) (by linarith),
            hue2rgb_wrapneg z x ((y - z) / (x - z) / 6 - 1 / 3)
              (by linarith) (by linarith),
            show (y - z) / (x - z) / 6 - 1 / 3 + 1
              = (y - z) / (x - z) / 6 + 2 / 3 from by ring,
            hue2rgb_seg4 z x ((y - z) / (x - z) / 6 + 2 / 3)
              (by linarith) (by linarith),
            show z + (x - z) * 6 * ((y - z) / (x - z) / 6) = y from by
              field_simp]
        · -- min = y
          have hmn : min x (min y z) = y := by
            rw [min_eq_left hzy.le, min_eq_right hyx]
          rw [hmx, hmn] at hach ⊢
          have hyx' : y < x := lt_of_le_of_ne hyx (fun h => hach h.symm)
          have hd : (0 : ℚ) < x - y := sub_pos.mpr hyx'
          have hdne : x - y ≠ 0 := ne_of_gt hd
          have hf0 : -1 ≤ (y - z) / (x - y) := by
            rw [le_div_iff hd]
            linarith
          have hf1 : (y - z) / (x - y) < 0 :=
            div_neg_of_neg_of_pos (by linarith) hd
          rw [if_pos rfl, if_pos hzy]
          simp only [hslToRgb]
          obtain ⟨hq, -, hs0⟩ :=
            hsl_qp_recover x y
              (if 1 / 2 < (x + y) / 2 then (x - y) / (2 - x - y)
                else (x - y) / (x + y))
              (if (x + y) / 2 < 1 / 2
                then (x + y) / 2 *
                  (1 + if 1 / 2 < (x + y) / 2 then (x - y) / (2 - x - y)
                    else (x - y) / (x + y))
                else (x + y) / 2 +
                  (if 1 / 2 < (x + y) / 2 then (x - y) / (2 - x - y)
                    else (x - y) / (x + y)) -
                  (x + y) / 2 *
                  (if 1 / 2 < (x + y) / 2 then (x - y) / (2 - x - y)
                    else (x - y) / (x + y)))
              hy0 hyx' hx1 rfl rfl
          rw [if_neg hs0, hq,
            show (2 : ℚ) * ((x + y) / 2) - x = y from by ring,
            mul_div_cancel_right₀ _ h360]
          rw [hue2rgb_wrappos y x (((y - z) / (x - y) + 6) / 6 + 1 / 3)
              (by linarith) (by linarith),
            show ((y - z) / (x - y) + 6) / 6 + 1 / 3 - 1
              = (y - z) / (x - y) / 6 + 1 / 3 from by ring,
            hue2rgb_seg2 y x ((y - z) / (x - y) / 6 + 1 / 3)
              (by linarith) (by linarith),
            hue2rgb_seg4 y x (((y - z) / (x - y) + 6) / 6)
              (by linarith) (by linarith),
            hue2rgb_seg3 y x (((y - z) / (x - y) + 6) / 6 - 1 / 3)
              (by linarith) (by linarith),
            show y + (x - y) * (2 / 3 - (((y - z) / (x - y) + 6) / 6 - 1 / 3))
                * 6 = z from by field_simp; ring]
      · -- y ≤ x < z : max = z, min = y
        have hyz : y < z := lt_of_le_of_lt hyx hzx
        have hmx : max x (max y z) = z := by
          rw [max_eq_right hyz.le, max_eq_right hzx.le]
        have hmn : min x (min y z) = y := by
          rw [min_eq_left hyz.le, min_eq_right hyx]
        rw [hmx, hmn] at hach ⊢
        have hd : (0 : ℚ) < z - y := sub_pos.mpr hyz
        have hdne : z - y ≠ 0 := ne_of_gt hd
        have hf0 : 0 ≤ (x - y) / (z - y) := div_nonneg (by linarith) hd.le
        have hf1 : (x - y) / (z - y) < 1 := (div_lt_one hd).mpr (by linarith)
        rw [if_neg (ne_of_gt hzx), if_neg (ne_of_gt hyz)]
        simp only [hslToRgb]
        obtain ⟨hq, -, hs0⟩ :=
          hsl_qp_recover z y
            (if 1 / 2 < (z + y) / 2 then (z - y) / (2 - z - y)
              else (z - y) / (z + y))
            (if (z + y) / 2 < 1 / 2
              then (z + y) / 2 *
                (1 + if 1 / 2 < (z + y) / 2 then (z - y) / (2 - z - y)
                  else (z - y) / (z + y))
              else (z + y) / 2 +
                (if 1 / 2 < (z + y) / 2 then (z - y) / (2 - z - y)
                  else (z - y) / (z + y)) -
                (z + y) / 2 *
                (if 1 / 2 < (z + y) / 2 then (z - y) / (2 - z - y)
                  else (z - y) / (z + y)))
            hy0 hyz hz1 rfl rfl
        rw [if_neg hs0, hq,
          show (2 : ℚ) * ((z + y) / 2) - z = y from by ring,
          mul_div_cancel_right₀ _ h360]
        rcases eq_or_lt_of_le hyx with heq | hlt
        · rw [hue2rgb_seg4 y z (((x - y) / (z - y) + 4) / 6 + 1 / 3)
              (by linarith) (by rw [← heq]; norm_num),
            hue2rgb_seg4 y z (((x - y) / (z - y) + 4) / 6)
              (by linarith) (by linarith),
            hue2rgb_seg2 y z (((x - y) / (z - y) + 4) / 6 - 1 / 3)
              (by linarith) (by linarith), heq]
        · have hfpos : 0 < (x - y) / (z - y) := div_pos (by linarith) hd
          rw [hue2rgb_wrappos y z (((x - y) / (z - y) + 4) / 6 + 1 / 3)
              (by linarith) (by linarith),
            show ((x - y) / (z - y) + 4) / 6 + 1 / 3 - 1
              = (x - y) / (z - y) / 6 from by ring,
            hue2rgb_seg1 y z ((x - y) / (z - y) / 6)
              (by linarith) (by linarith),
            hue2rgb_seg4 y z (((x - y) / (z - y) + 4) / 6)
              (by linarith) (by linarith),
            hue2rgb_seg2 y z (((x - y) / (z - y) + 4) / 6 - 1 / 3)
              (by linarith) (by linarith),
            show y + (z - y) * 6 * ((x - y) / (z - y) / 6) = x from by
              field_simp]
    · rcases le_or_lt z y with hzy | hzy
      · -- max = y
        have hmx : max x (max y z) = y := by
          rw [max_eq_left hzy, max_eq_right hyx.le]
        rcases le_or_lt x z with hxz | hxz
        · -- min = x
          have hmn : min x (min y z) = x := by
            rw [min_eq_right hzy, min_eq_left hxz]
          rw [hmx, hmn] at hach ⊢
          have hd : (0 : ℚ) < y - x := sub_pos.mpr hyx
          have hdne : y - x ≠ 0 := ne_of_gt hd
          have hf0 : 0 ≤ (z - x) / (y - x) := div_nonneg (by linarith) hd.le
          have hf1 : (z - x) / (y - x) ≤ 1 := (div_le_one hd).mpr (by linarith)
          rw [if_neg (ne_of_gt hyx), if_pos rfl]
          simp only [hslToRgb]
          obtain ⟨hq, -, hs0⟩ :=
            hsl_qp_recover y x
              (if 1 / 2 < (y + x) / 2 then (y - x) / (2 - y - x)
                else (y - x) / (y + x))
              (if (y + x) / 2 < 1 / 2
                then (y + x) / 2 *
                  (1 + if 1 / 2 < (y + x) / 2 then (y - x) / (2 - y - x)
                    else (y - x) / (y + x))
                else (y + x) / 2 +
                  (if 1 / 2 < (y + x) / 2 then (y - x) / (2 - y - x)
                    else (y - x) / (y + x)) -
                  (y + x) / 2 *
                  (if 1 / 2 < (y + x) / 2 then (y - x) / (2 - y - x)
                    else (y - x) / (y + x)))
              hx0 hyx hy1 rfl rfl
          rw [if_neg hs0, hq,
            show (2 : ℚ) * ((y + x) / 2) - y = x from by ring,
            mul_div_cancel_right₀ _ h360]
          rw [hue2rgb_seg4 x y (((z - x) / (y - x) + 2) / 6 + 1 / 3)
              (by linarith) (by linarith),
            hue2rgb_seg2 x y (((z - x) / (y - x) + 2) / 6)
              (by linarith) (by linarith),
            hue2rgb_seg1 x y (((z - x) / (y - x) + 2) / 6 - 1 / 3)
              (by linarith) (by linarith),
            show x + (y - x) * 6 * (((z - x) / (y - x) + 2) / 6 - 1 / 3) = z
              from by field_simp; ring]
        · -- min = z
          have hmn : min x (min y z) = z := by
            rw [min_eq_right hzy, min_eq_right hxz.le]
          rw [hmx, hmn] at hach ⊢
          have hzy' : z < y := lt_trans hxz hyx
          have hd : (0 : ℚ) < y - z := sub_pos.mpr hzy'
          have hdne : y - z ≠ 0 := ne_of_gt hd
          have hf0 : -1 < (z - x) / (y - z) := by
            rw [lt_div_iff hd]
            linarith
          have hf1 : (z - x) / (y - z) < 0 :=
            div_neg_of_neg_of_pos (by linarith) hd
          rw [if_neg (ne_of_gt hyx), if_pos rfl]
          simp only [hslToRgb]
          obtain ⟨hq, -, hs0⟩ :=
            hsl_qp_recover y z
              (if 1 / 2 < (y + z) / 2 then (y - z) / (2 - y - z)
                else (y - z) / (y + z))
              (if (y + z) / 2 < 1 / 2
                then (y + z) / 2 *
                  (1 + if 1 / 2 < (y + z) / 2 then (y - z) / (2 - y - z)
                    else (y - z) / (y + z))
                else (y + z) / 2 +
                  (if 1 / 2 < (y + z) / 2 then (y - z) / (2 - y - z)
                    else (y - z) / (y + z)) -
                  (y + z) / 2 *
                  (if 1 / 2 < (y + z) / 2 then (y - z) / (2 - y - z)
                    else (y - z) / (y + z)))
            hz0 hzy' hy1 rfl rfl
          rw [if_neg hs0, hq,
            show (2 : ℚ) * ((y + z) / 2) - y = z from by ring,
            mul_div_cancel_right₀ _ h360]
          rw [hue2rgb_seg3 z y (((z - x) / (y - z) + 2) / 6 + 1 / 3)
              (by linarith) (by linarith),
            hue2rgb_seg2 z y (((z - x) / (y - z) + 2) / 6)
              (by linarith) (by linarith),
            hue2rgb_wrapneg z y (((z - x) / (y - z) + 2) / 6 - 1 / 3)
              (by linarith) (by linarith),
            show ((z - x) / (y - z) + 2) / 6 - 1 / 3 + 1
              = (z - x) / (y - z) / 6 + 1 from by ring,
            hue2rgb_seg4 z y ((z - x) / (y - z) / 6 + 1)
              (by linarith) (by linarith),
            show z + (y - z) * (2 / 3 - (((z - x) / (y - z) + 2) / 6 + 1 / 3))
                * 6 = x from by field_simp; ring]
      · -- x < y < z : max = z, min = x
        have hxz : x < z := lt_trans hyx hzy
        have hmx : max x (max y z) = z := by
          rw [max_eq_right hzy.le, max_eq_right hxz.le]
        have hmn : min x (min y z) = x := by
          rw [min_eq_left hzy.le, min_eq_left hyx.le]
        rw [hmx, hmn] at hach ⊢
        have hd : (0 : ℚ) < z - x := sub_pos.mpr hxz
        have hdne : z - x ≠ 0 := ne_of_gt hd
        have hf0 : -1 < (x - y) / (z - x) := by
          rw [lt_div_iff hd]
          linarith
        have hf1 : (x - y) / (z - x) < 0 :=
          div_neg_of_neg_of_pos (by linarith) hd
        rw [if_neg (ne_of_gt hxz), if_neg (ne_of_gt hzy)]
        simp only [hslToRgb]
        obtain ⟨hq, -, hs0⟩ :=
          hsl_qp_recover z x
            (if 1 / 2 < (z + x) / 2 then (z - x) / (2 - z - x)
              else (z - x) / (z + x))
            (if (z + x) / 2 < 1 / 2
              then (z + x) / 2 *
                (1 + if 1 / 2 < (z + x) / 2 then (z - x) / (2 - z - x)
                  else (z - x) / (z + x))
              else (z + x) / 2 +
                (if 1 / 2 < (z + x) / 2 then (z - x) / (2 - z - x)
                  else (z - x) / (z + x)) -
                (z + x) / 2 *
                (if 1 / 2 < (z + x) / 2 then (z - x) / (2 - z - x)
                  else (z - x) / (z + x)))
          hx0 hxz hz1 rfl rfl
        rw [if_neg hs0, hq,
          show (2 : ℚ) * ((z + x) / 2) - z = x from by ring,
          mul_div_cancel_right₀ _ h360]
        rw [hue2rgb_seg4 x z (((x - y) / (z - x) + 4) / 6 + 1 / 3)
            (by linarith) (by linarith),
          hue2rgb_seg3 x z (((x - y) / (z - x) + 4) / 6)
            (by linarith) (by linarith),
          hue2rgb_seg2 x z (((x - y) / (z - x) + 4) / 6 - 1 / 3)
            (by linarith) (by linarith),
          show x + (z - x) * (2 / 3 - ((x - y) / (z - x) + 4) / 6) * 6 = y
            from by field_simp; ring]

/-- The RGB to HSL to RGB round trip is exact on integer channels. -/
theorem rgb_hsl_roundtrip_exact (r g b : ℕ) (hr : r ≤ 255) (hg : g ≤ 255)
    (hb : b ≤ 255) :
    hslToRgb (rgbToHsl r g b).h (rgbToHsl r g b).s (rgbToHsl r g b).l =
      ((r : ℤ), (g : ℤ), (b : ℤ)) := by
  have h255 : (255 : ℚ) ≠ 0 := by norm_num
  have hcore := roundtrip_core ((r : ℚ) / 255) ((g : ℚ) / 255) ((b : ℚ) / 255)
    (by positivity) ((div_le_one (by norm_num)).mpr (by exact_mod_cast hr))
    (by positivity) ((div_le_one (by norm_num)).mpr (by exact_mod_cast hg))
    (by positivity) ((div_le_one (by norm_num)).mpr (by exact_mod_cast hb))
  rw [div_mul_cancel₀ _ h255, div_mul_cancel₀ _ h255, div_mul_cancel₀ _ h255,
    jsRound_natCast, jsRound_natCast, jsRound_natCast] at hcore
  exact hcore

/-- C7: converting any integer RGB triple with channels in [0,255] to
HSL with rgbToHsl and back with hslToRgb, with no hue or saturation
shift applied, yields channels within plus or minus 1 of the original
(the code in fact reproduces them exactly). -/
theorem rgb_hsl_roundtrip (r g b : ℕ) (hr : r ≤ 255) (hg : g ≤ 255)
    (hb : b ≤ 255) :
    |(hslToRgb (rgbToHsl r g b).h (rgbToHsl r g b).s
        (rgbToHsl r g b).l).1 - (r : ℤ)| ≤ 1 ∧
    |(hslToRgb (rgbToHsl r g b).h (rgbToHsl r g b).s
        (rgbToHsl r g b).l).2.1 - (g : ℤ)| ≤ 1 ∧
    |(hslToRgb (rgbToHsl r g b).h (rgbToHsl r g b).s
        (rgbToHsl r g b).l).2.2 - (b : ℤ)| ≤ 1 := by
  rw [rgb_hsl_roundtrip_exact r g b hr hg hb]
  norm_num

/-- C7 witness: the triple (12, 200, 34). -/
theorem rgb_hsl_roundtrip_witness :
    ((12 : ℕ) ≤ 255 ∧ (200 : ℕ) ≤ 255 ∧ (34 : ℕ) ≤ 255) ∧
    (|(hslToRgb (rgbToHsl ((12 : ℕ) : ℚ) ((200 : ℕ) : ℚ) ((34 : ℕ) : ℚ)).h
        (rgbToHsl ((12 : ℕ) : ℚ) ((200 : ℕ) : ℚ) ((34 : ℕ) : ℚ)).s
        (rgbToHsl ((12 : ℕ) : ℚ) ((200 : ℕ) : ℚ) ((34 : ℕ) : ℚ)).l).1 -
        ((12 : ℕ) : ℤ)| ≤ 1 ∧
     |(hslToRgb (rgbToHsl ((12 : ℕ) : ℚ) ((200 : ℕ) : ℚ) ((34 : ℕ) : ℚ)).h
        (rgbToHsl ((12 : ℕ) : ℚ) ((200 : ℕ) : ℚ) ((34 : ℕ) : ℚ)).s
        (rgbToHsl ((12 : ℕ) : ℚ) ((200 : ℕ) : ℚ) ((34 : ℕ) : ℚ)).l).2.1 -
        ((200 : ℕ) : ℤ)| ≤ 1 ∧
     |(hslToRgb (rgbToHsl ((12 : ℕ) : ℚ) ((200 : ℕ) : ℚ) ((34 : ℕ) : ℚ)).h
        (rgbToHsl ((12 : ℕ) : ℚ) ((200 : ℕ) : ℚ) ((34 : ℕ) : ℚ)).s
        (rgbToHsl ((12 : ℕ) : ℚ) ((200 : ℕ) : ℚ) ((34 : ℕ) : ℚ)).l).2.2 -
        ((34 : ℕ) : ℤ)| ≤ 1) :=
  ⟨⟨by decide, by decide, by decide⟩,
    rgb_hsl_roundtrip 12 200 34 (by decide) (by decide) (by decide)⟩

end PixelPulse
